import Mathlib

/-!
Verification of the subtitle pipeline in `src/app.py` (Subtutler).

The Python functions are shallow-embedded here:

* `translate_subtitles` (app.py lines 46-61) works line by line on the
  serialized SRT text; the external Helsinki-NLP translation model is a
  parameter `load_translation_model : String → String → Except String
  (String → Except String String)` (loading the model for a language pair
  either yields a per-line translator or raises), and a Python exception is
  an `Except.error`.
* Python string primitives used by the classification test
  (`str.strip`, `str.isdigit`, `"-->" in line`, `str.split("\n")`,
  `"\n".join`) are embedded over `List Char` (ASCII reading of the
  whitespace/digit classes, which covers the SRT material the app handles).
* `extract_audio_to_mp3` (lines 16-34) and the orchestration block
  (lines 120-141) are embedded as explicit file-system state passing: the
  state is the list of temporary file paths currently on disk, and the
  outcomes of the external tools (ffmpeg, the transcription service, the
  translator) are parameters.
* `set_openai_api_key` / `generate_subtitles` (lines 8-9 and 36-44) are
  embedded with the module-level `openai` client state passed explicitly.
-/

/-- Python whitespace test `str.isspace` restricted to the ASCII whitespace
characters stripped by `str.strip()`. -/
def pyIsSpace (c : Char) : Bool :=
  c == ' ' || c == '\t' || c == '\n' || c == '\r' || c == '\x0b' || c == '\x0c'

/-- Python `line.strip()`: drop leading and trailing whitespace. -/
def pyStrip (s : String) : String :=
  String.mk (((s.data.dropWhile pyIsSpace).reverse.dropWhile pyIsSpace).reverse)

/-- Python `s.isdigit()`: `s` is non-empty and every character is a digit
(ASCII reading). -/
def pyIsDigit (s : String) : Bool :=
  !s.data.isEmpty && s.data.all Char.isDigit

/-- Python `"-->" in line`: some suffix of the character list starts with
the three characters of the SRT timing-range delimiter. -/
def containsArrow : List Char → Bool
  | '-' :: '-' :: '>' :: _ => true
  | _ :: rest => containsArrow rest
  | [] => false

/-- Python `s.split("\n")` on the underlying character list: the split never
returns an empty list, and an empty input yields one empty line. -/
def splitNlCh : List Char → List (List Char)
  | [] => [[]]
  | c :: cs =>
    if c = '\n' then [] :: splitNlCh cs
    else
      match splitNlCh cs with
      | [] => [[c]]
      | l :: ls => (c :: l) :: ls

/-- Python `"\n".join` on character lists. -/
def joinNlCh : List (List Char) → List Char
  | [] => []
  | [l] => l
  | l :: ls => l ++ '\n' :: joinNlCh ls

/-- Python `subtitles.split("\n")`. -/
def pySplitLines (s : String) : List String :=
  (splitNlCh s.data).map String.mk

/-- Python `"\n".join(translated_lines)`. -/
def joinNl (ls : List String) : String :=
  String.mk (joinNlCh (ls.map String.data))

/-- The classification test of app.py line 54:
`line.strip() and not line.strip().isdigit() and "-->" not in line`.
A line passing the test is sent to the translation model. -/
def isTextual (line : String) : Bool :=
  !(pyStrip line).data.isEmpty && !pyIsDigit (pyStrip line) && !containsArrow line.data

/-- The classification test as claim C9 words it: the whitespace-stripped
content is non-empty, the stripped content is not composed entirely of digit
characters, and the line nowhere contains the substring of the timing-range
delimiter. Stated from the claim text, to be compared with `isTextual`. -/
def sentToModelSpec (line : String) : Prop :=
  pyStrip line ≠ "" ∧
    (pyStrip line).data.all Char.isDigit = false ∧
    containsArrow line.data = false

/-- The loop of app.py lines 52-58: translate each textual line through the
model, keep every other line verbatim; the first exception aborts the loop. -/
def translateLines (tr : String → Except String String) :
    List String → Except String (List String)
  | [] => Except.ok []
  | line :: rest =>
    if isTextual line then
      match tr line with
      | Except.error e => Except.error e
      | Except.ok t =>
        match translateLines tr rest with
        | Except.error e => Except.error e
        | Except.ok ts => Except.ok (t :: ts)
    else
      match translateLines tr rest with
      | Except.error e => Except.error e
      | Except.ok ts => Except.ok (line :: ts)

/-- The loop of app.py lines 52-58, additionally recording the lines that are
actually passed to the translation model, in order. -/
def translateLinesTraced (tr : String → Except String String) :
    List String → Except String (List String) × List String
  | [] => (Except.ok [], [])
  | line :: rest =>
    if isTextual line then
      match tr line with
      | Except.error e => (Except.error e, [line])
      | Except.ok t =>
        match translateLinesTraced tr rest with
        | (Except.error e, calls) => (Except.error e, line :: calls)
        | (Except.ok ts, calls) => (Except.ok (t :: ts), line :: calls)
    else
      match translateLinesTraced tr rest with
      | (Except.error e, calls) => (Except.error e, calls)
      | (Except.ok ts, calls) => (Except.ok (line :: ts), calls)

/-- app.py lines 46-61, `translate_subtitles(subtitles, source_lang,
target_lang)`. Identical codes short-circuit before any model access; any
exception inside the `try` block is re-raised wrapped as
`RuntimeError("Error during translation: ...")`. -/
def translate_subtitles
    (load_translation_model : String → String → Except String (String → Except String String))
    (subtitles source_lang target_lang : String) : Except String String :=
  if source_lang = target_lang then
    Except.ok subtitles
  else
    match load_translation_model source_lang target_lang with
    | Except.error e => Except.error ("Error during translation: " ++ e)
    | Except.ok translator =>
      match translateLines translator (pySplitLines subtitles) with
      | Except.error e => Except.error ("Error during translation: " ++ e)
      | Except.ok translated_lines => Except.ok (joinNl translated_lines)

/-- `translate_subtitles` instrumented with the list of lines passed to the
translation model (empty whenever the model is never invoked). -/
def translate_subtitles_traced
    (load_translation_model : String → String → Except String (String → Except String String))
    (subtitles source_lang target_lang : String) : Except String String × List String :=
  if source_lang = target_lang then
    (Except.ok subtitles, [])
  else
    match load_translation_model source_lang target_lang with
    | Except.error e => (Except.error ("Error during translation: " ++ e), [])
    | Except.ok translator =>
      match translateLinesTraced translator (pySplitLines subtitles) with
      | (Except.error e, calls) => (Except.error ("Error during translation: " ++ e), calls)
      | (Except.ok translated_lines, calls) => (Except.ok (joinNl translated_lines), calls)

/-- Outcome of the external ffmpeg invocation inside `extract_audio_to_mp3`:
the subprocess succeeds, exits non-zero (`subprocess.CalledProcessError`), or
some other exception is raised. -/
inductive ExtractOutcome where
  | success : ExtractOutcome
  | ffmpegError : String → ExtractOutcome
  | ioError : String → ExtractOutcome

/-- app.py lines 16-34, `extract_audio_to_mp3(video_file)`, as a transition
on the list of temporary files on disk. Two temporary files are created
(`delete=False`); on success the video temp file is removed via `os.remove`
and the audio path is returned; either `except` branch re-raises as a
`RuntimeError` and removes nothing. The fresh temp paths chosen by
`tempfile.NamedTemporaryFile` are parameters. -/
def extract_audio_to_mp3 (outcome : ExtractOutcome)
    (video_temp_path audio_output_path : String) (fs : List String) :
    Except String String × List String :=
  let fs2 := audio_output_path :: video_temp_path :: fs
  match outcome with
  | ExtractOutcome.success =>
    (Except.ok audio_output_path, fs2.erase video_temp_path)
  | ExtractOutcome.ffmpegError e => (Except.error ("FFmpeg error: " ++ e), fs2)
  | ExtractOutcome.ioError e => (Except.error ("Unexpected error: " ++ e), fs2)

/-- app.py lines 120-141, the orchestration block behind the "Create
Subtitles" button, as a transition on the list of temporary files: extract,
transcribe, translate, then `os.remove(audio_path)`; any exception lands in
the `except` branch, which only displays the error and removes nothing.
`none` as first component models the failure path (`st.error`). -/
def pipeline_run (outcome : ExtractOutcome)
    (transcribe : String → Except String String)
    (load_translation_model : String → String → Except String (String → Except String String))
    (source_lang target_lang video_temp_path audio_output_path : String)
    (fs : List String) : Option String × List String :=
  match extract_audio_to_mp3 outcome video_temp_path audio_output_path fs with
  | (Except.error _, fs1) => (none, fs1)
  | (Except.ok audio_path, fs1) =>
    match transcribe audio_path with
    | Except.error _ => (none, fs1)
    | Except.ok subtitles =>
      match translate_subtitles load_translation_model subtitles source_lang target_lang with
      | Except.error _ => (none, fs1)
      | Except.ok translated => (some translated, fs1.erase audio_path)

/-- Module-level mutable state of the `openai` client library
(the `openai.api_key` attribute, shared by every request in the process). -/
structure OpenAIState where
  api_key : Option String
deriving DecidableEq

/-- app.py lines 8-9: `set_openai_api_key` assigns `openai.api_key`. -/
def set_openai_api_key (key : String) (_st : OpenAIState) : OpenAIState :=
  { api_key := some key }

/-- app.py lines 36-44, `generate_subtitles(audio_path, api_key)`: the module
state is updated first, then `openai.Audio.transcribe` reads the credential
from that shared module state. The external speech-to-text service is the
parameter `transcribe_service` (credential visible to the call, audio path). -/
def generate_subtitles
    (transcribe_service : Option String → String → Except String String)
    (audio_path api_key : String) (st : OpenAIState) :
    Except String String × OpenAIState :=
  let st1 := set_openai_api_key api_key st
  (transcribe_service st1.api_key audio_path, st1)

/-- app.py lines 63-68, `language_code_map`, as a lookup: `some code` for the
four supported display names, `none` for the `KeyError` of any other key. -/
def language_code_map (language : String) : Option String :=
  if language = "English" then some "en"
  else if language = "Russian" then some "ru"
  else if language = "Ukrainian" then some "uk"
  else if language = "Polish" then some "pl"
  else none

/-- The four supported two-letter codes, the range of `language_code_map`. -/
def supported_codes : List String :=
  ["en", "ru", "uk", "pl"]

/-- app.py lines 87-141: the script maps both selected display names through
`language_code_map` (lines 92 and 102) before the pipeline block at line 120
can run; an unmapped name raises `KeyError` there, halting the script with
the file system untouched. -/
def app_flow (outcome : ExtractOutcome)
    (transcribe : String → Except String String)
    (load_translation_model : String → String → Except String (String → Except String String))
    (source_language target_language video_temp_path audio_output_path : String)
    (fs : List String) : Option String × List String :=
  match language_code_map source_language with
  | none => (none, fs)
  | some source_code =>
    match language_code_map target_language with
    | none => (none, fs)
    | some target_code =>
      pipeline_run outcome transcribe load_translation_model source_code target_code
        video_temp_path audio_output_path fs

theorem splitNlCh_ne_nil (cs : List Char) : splitNlCh cs ≠ [] := by
  cases cs with
  | nil => simp [splitNlCh]
  | cons c cs =>
    simp only [splitNlCh]
    by_cases h : c = '\n'
    · simp [h]
    · rw [if_neg h]
      rcases hsp : splitNlCh cs with _ | ⟨l, ls⟩ <;> simp

theorem not_newline_mem_splitNlCh :
    ∀ cs : List Char, ∀ l ∈ splitNlCh cs, '\n' ∉ l := by
  intro cs
  induction cs with
  | nil =>
    intro l hl
    simp only [splitNlCh, List.mem_singleton] at hl
    subst hl
    simp
  | cons c cs ih =>
    intro l hl
    simp only [splitNlCh] at hl
    by_cases h : c = '\n'
    · rw [if_pos h] at hl
      rcases List.mem_cons.mp hl with rfl | hl
      · simp
      · exact ih l hl
    · rw [if_neg h] at hl
      rcases hsp : splitNlCh cs with _ | ⟨l0, ls⟩
      · rw [hsp] at hl
        simp only [List.mem_singleton] at hl
        subst hl
        intro hmem
        rcases List.mem_cons.mp hmem with hc | hc
        · exact h hc.symm
        · simp at hc
      · rw [hsp] at hl
        rcases List.mem_cons.mp hl with rfl | hl
        · intro hmem
          rcases List.mem_cons.mp hmem with hc | hmem
          · exact h hc.symm
          · exact ih l0 (by rw [hsp]; exact List.mem_cons_self l0 ls) hmem
        · exact ih l (by rw [hsp]; exact List.mem_cons_of_mem l0 hl)

theorem splitNlCh_append_newline :
    ∀ l cs : List Char, '\n' ∉ l → splitNlCh (l ++ '\n' :: cs) = l :: splitNlCh cs := by
  intro l
  induction l with
  | nil => intro cs _; simp [splitNlCh]
  | cons c l ih =>
    intro cs h
    have hc : ¬ c = '\n' := fun hh => h (by rw [hh]; exact List.mem_cons_self _ _)
    simp only [List.cons_append, splitNlCh, if_neg hc]
    rw [show l.append ('\n' :: cs) = l ++ '\n' :: cs from rfl,
      ih cs (fun hm => h (List.mem_cons_of_mem c hm))]

theorem splitNlCh_no_newline :
    ∀ l : List Char, '\n' ∉ l → splitNlCh l = [l] := by
  intro l
  induction l with
  | nil => intro _; rfl
  | cons c l ih =>
    intro h
    have hc : ¬ c = '\n' := fun hh => h (by rw [hh]; exact List.mem_cons_self _ _)
    simp only [splitNlCh, if_neg hc, ih (fun hm => h (List.mem_cons_of_mem c hm))]

theorem splitNlCh_joinNlCh :
    ∀ ls : List (List Char), ls ≠ [] → (∀ l ∈ ls, '\n' ∉ l) →
      splitNlCh (joinNlCh ls) = ls
  | [], h, _ => absurd rfl h
  | [l], _, hnl => by
    simp only [joinNlCh]
    exact splitNlCh_no_newline l (hnl l (List.mem_cons_self _ _))
  | l :: l2 :: ls, _, hnl => by
    have h1 : joinNlCh (l :: l2 :: ls) = l ++ '\n' :: joinNlCh (l2 :: ls) := rfl
    rw [h1, splitNlCh_append_newline l _ (hnl l (List.mem_cons_self _ _)),
      splitNlCh_joinNlCh (l2 :: ls) (by simp)
        (fun x hx => hnl x (List.mem_cons_of_mem l hx))]

theorem isDigit_eq_false_of_pyIsSpace (c : Char) (h : pyIsSpace c = true) :
    c.isDigit = false := by
  simp only [pyIsSpace, Bool.or_eq_true, beq_iff_eq] at h
  rcases h with ((((h | h) | h) | h) | h) | h <;> subst h <;> decide

theorem pyIsSpace_eq_false_of_isDigit (c : Char) (h : c.isDigit = true) :
    pyIsSpace c = false := by
  cases hs : pyIsSpace c
  · rfl
  · rw [isDigit_eq_false_of_pyIsSpace c hs] at h
    exact Bool.noConfusion h

theorem dropWhile_pyIsSpace_of_digits (l : List Char)
    (h : ∀ c ∈ l, c.isDigit = true) : l.dropWhile pyIsSpace = l := by
  cases l with
  | nil => rfl
  | cons c cs =>
    rw [List.dropWhile_cons,
      pyIsSpace_eq_false_of_isDigit c (h c (List.mem_cons_self _ _))]
    simp

theorem pyStrip_of_digits (s : String) (h : ∀ c ∈ s.data, c.isDigit = true) :
    pyStrip s = s := by
  unfold pyStrip
  rw [dropWhile_pyIsSpace_of_digits s.data h,
    dropWhile_pyIsSpace_of_digits s.data.reverse
      (fun c hc => h c (List.mem_reverse.mp hc)),
    List.reverse_reverse]

theorem isTextual_eq_false_of_pyIsDigit (line : String)
    (h : pyIsDigit line = true) : isTextual line = false := by
  have hd : ∀ c ∈ line.data, c.isDigit = true := by
    have h2 := h
    simp only [pyIsDigit, Bool.and_eq_true, List.all_eq_true, decide_eq_true_eq] at h2
    exact fun c hc => h2.2 c hc
  unfold isTextual
  rw [pyStrip_of_digits line hd, h]
  simp

theorem isTextual_eq_false_of_arrow (line : String)
    (h : containsArrow line.data = true) : isTextual line = false := by
  unfold isTextual
  rw [h]
  simp

theorem string_eq_empty_iff (s : String) : s = "" ↔ s.data = [] := by
  constructor
  · intro h; subst h; rfl
  · intro h
    cases s with
    | mk data => cases h; rfl

theorem isTextual_iff_sent (line : String) :
    isTextual line = true ↔ sentToModelSpec line := by
  unfold isTextual sentToModelSpec pyIsDigit
  constructor
  · intro h
    simp only [Bool.and_eq_true, Bool.not_eq_true'] at h
    obtain ⟨⟨hA, hAB⟩, hC⟩ := h
    refine ⟨?_, ?_, hC⟩
    · intro hnil
      rw [(string_eq_empty_iff _).mp hnil] at hA
      exact Bool.noConfusion hA
    · rw [hA] at hAB
      simpa using hAB
  · intro ⟨h1, h2, h3⟩
    have hA : (pyStrip line).data.isEmpty = false := by
      cases hd : (pyStrip line).data
      · exact absurd ((string_eq_empty_iff _).mpr hd) h1
      · rfl
    simp [hA, h2, h3]

theorem translateLines_forall2 (tr : String → Except String String) :
    ∀ l outLines, translateLines tr l = Except.ok outLines →
      List.Forall₂
        (fun a b => (isTextual a = false ∧ b = a) ∨
          (isTextual a = true ∧ tr a = Except.ok b))
        l outLines := by
  intro l
  induction l with
  | nil =>
    intro outLines h
    simp only [translateLines] at h
    cases h
    exact List.Forall₂.nil
  | cons line rest ih =>
    intro outLines h
    rw [translateLines] at h
    by_cases hT : isTextual line = true
    · rw [if_pos hT] at h
      cases htr : tr line with
      | error e => rw [htr] at h; exact Except.noConfusion h
      | ok t =>
        rw [htr] at h
        cases hrec : translateLines tr rest with
        | error e => rw [hrec] at h; exact Except.noConfusion h
        | ok ts =>
          rw [hrec] at h
          cases h
          exact List.Forall₂.cons (Or.inr ⟨hT, htr⟩) (ih ts hrec)
    · rw [if_neg hT] at h
      have hF : isTextual line = false := by simpa using hT
      cases hrec : translateLines tr rest with
      | error e => rw [hrec] at h; exact Except.noConfusion h
      | ok ts =>
        rw [hrec] at h
        cases h
        exact List.Forall₂.cons (Or.inl ⟨hF, rfl⟩) (ih ts hrec)

theorem translateLines_error_of_mem (tr : String → Except String String) :
    ∀ l line e, line ∈ l → isTextual line = true → tr line = Except.error e →
      ∃ msg, translateLines tr l = Except.error msg := by
  intro l
  induction l with
  | nil => intro line e hmem; exact absurd hmem (List.not_mem_nil line)
  | cons hd rest ih =>
    intro line e hmem htext herr
    rw [translateLines]
    by_cases hT : isTextual hd = true
    · rw [if_pos hT]
      cases htr : tr hd with
      | error e2 => exact ⟨e2, rfl⟩
      | ok t =>
        have hmem2 : line ∈ rest := by
          rcases List.mem_cons.mp hmem with rfl | hmem2
          · rw [herr] at htr; exact Except.noConfusion htr
          · exact hmem2
        obtain ⟨msg, hmsg⟩ := ih line e hmem2 htext herr
        rw [hmsg]
        exact ⟨msg, rfl⟩
    · rw [if_neg hT]
      have hmem2 : line ∈ rest := by
        rcases List.mem_cons.mp hmem with rfl | hmem2
        · exact absurd htext hT
        · exact hmem2
      obtain ⟨msg, hmsg⟩ := ih line e hmem2 htext herr
      rw [hmsg]
      exact ⟨msg, rfl⟩

theorem translateLinesTraced_ok (tr : String → Except String String) :
    ∀ l outLines calls, translateLinesTraced tr l = (Except.ok outLines, calls) →
      calls = l.filter isTextual ∧ translateLines tr l = Except.ok outLines := by
  intro l
  induction l with
  | nil =>
    intro outLines calls h
    simp only [translateLinesTraced] at h
    rw [Prod.mk.injEq] at h
    obtain ⟨h1, h2⟩ := h
    cases h1
    exact ⟨h2.symm, rfl⟩
  | cons line rest ih =>
    intro outLines calls h
    rw [translateLinesTraced] at h
    by_cases hT : isTextual line = true
    · rw [if_pos hT] at h
      cases htr : tr line with
      | error e =>
        rw [htr] at h
        rw [Prod.mk.injEq] at h
        exact Except.noConfusion h.1
      | ok t =>
        rw [htr] at h
        rcases hrec : translateLinesTraced tr rest with ⟨res, cs⟩
        rw [hrec] at h
        cases res with
        | error e =>
          rw [Prod.mk.injEq] at h
          exact Except.noConfusion h.1
        | ok ts =>
          rw [Prod.mk.injEq] at h
          obtain ⟨h1, h2⟩ := h
          cases h1
          obtain ⟨hcs, hlines⟩ := ih ts cs hrec
          subst h2
          refine ⟨by rw [List.filter_cons_of_pos hT, hcs], ?_⟩
          rw [translateLines, if_pos hT, htr, hlines]
    · rw [if_neg hT] at h
      have hF : isTextual line = false := by simpa using hT
      rcases hrec : translateLinesTraced tr rest with ⟨res, cs⟩
      rw [hrec] at h
      cases res with
      | error e =>
        rw [Prod.mk.injEq] at h
        exact Except.noConfusion h.1
      | ok ts =>
        rw [Prod.mk.injEq] at h
        obtain ⟨h1, h2⟩ := h
        cases h1
        obtain ⟨hcs, hlines⟩ := ih ts cs hrec
        subst h2
        refine ⟨by rw [List.filter_cons_of_neg (by simp [hF]), hcs], ?_⟩
        rw [translateLines, if_neg hT, hlines]

theorem map_mk_data : ∀ ls : List String, ls.map (fun s => String.mk s.data) = ls
  | [] => rfl
  | s :: ls => by rw [List.map_cons, map_mk_data ls]

theorem mem_pySplitLines_no_newline (d line : String) (hl : line ∈ pySplitLines d) :
    '\n' ∉ line.data := by
  unfold pySplitLines at hl
  obtain ⟨la, hla, heq⟩ := List.mem_map.mp hl
  rw [← heq]
  exact not_newline_mem_splitNlCh d.data la hla

theorem translate_subtitles_eq_ok
    (load : String → String → Except String (String → Except String String))
    (tr : String → Except String String) (d s t : String) (outLines : List String)
    (hst : s ≠ t) (hload : load s t = Except.ok tr)
    (hlines : translateLines tr (pySplitLines d) = Except.ok outLines) :
    translate_subtitles load d s t = Except.ok (joinNl outLines) := by
  unfold translate_subtitles
  rw [if_neg hst]
  simp only [hload, hlines]

theorem translate_subtitles_eq_error
    (load : String → String → Except String (String → Except String String))
    (tr : String → Except String String) (d s t msg : String)
    (hst : s ≠ t) (hload : load s t = Except.ok tr)
    (hlines : translateLines tr (pySplitLines d) = Except.error msg) :
    translate_subtitles load d s t =
      Except.error ("Error during translation: " ++ msg) := by
  unfold translate_subtitles
  rw [if_neg hst]
  simp only [hload, hlines]

theorem translate_subtitles_traced_eq_ok
    (load : String → String → Except String (String → Except String String))
    (tr : String → Except String String) (d s t : String)
    (outLines calls : List String)
    (hst : s ≠ t) (hload : load s t = Except.ok tr)
    (hrec : translateLinesTraced tr (pySplitLines d) = (Except.ok outLines, calls)) :
    translate_subtitles_traced load d s t = (Except.ok (joinNl outLines), calls) := by
  unfold translate_subtitles_traced
  rw [if_neg hst]
  simp only [hload, hrec]

theorem translate_subtitles_traced_eq_error
    (load : String → String → Except String (String → Except String String))
    (tr : String → Except String String) (d s t msg : String) (calls : List String)
    (hst : s ≠ t) (hload : load s t = Except.ok tr)
    (hrec : translateLinesTraced tr (pySplitLines d) = (Except.error msg, calls)) :
    translate_subtitles_traced load d s t =
      (Except.error ("Error during translation: " ++ msg), calls) := by
  unfold translate_subtitles_traced
  rw [if_neg hst]
  simp only [hload, hrec]

/-- C1: for any non-identity language pair and any behavior of the
translation model, `translate_subtitles` returns the join of a list with
exactly one entry per physical input line, in which every entry the
classification keeps — in particular every index line (entirely digits) and
every timing line (containing the delimiter) — is byte-identical to the
corresponding input line; only textual lines may differ. -/
theorem C1_structural_preservation
    (load : String → String → Except String (String → Except String String))
    (tr : String → Except String String) (d s t : String) (outLines : List String)
    (hst : s ≠ t) (hload : load s t = Except.ok tr)
    (hlines : translateLines tr (pySplitLines d) = Except.ok outLines) :
    translate_subtitles load d s t = Except.ok (joinNl outLines) ∧
    outLines.length = (pySplitLines d).length ∧
    (∀ line : String, pyIsDigit line = true ∨ containsArrow line.data = true →
      isTextual line = false) ∧
    ∀ i (hi : i < (pySplitLines d).length) (hi2 : i < outLines.length),
      isTextual ((pySplitLines d).get ⟨i, hi⟩) = false →
      outLines.get ⟨i, hi2⟩ = (pySplitLines d).get ⟨i, hi⟩ := by
  have hf := translateLines_forall2 tr (pySplitLines d) outLines hlines
  refine ⟨translate_subtitles_eq_ok load tr d s t outLines hst hload hlines,
    hf.length_eq.symm, ?_, ?_⟩
  · intro line hl
    rcases hl with h | h
    · exact isTextual_eq_false_of_pyIsDigit line h
    · exact isTextual_eq_false_of_arrow line h
  · intro i hi hi2 hfalse
    rcases hf.get hi hi2 with ⟨_, hb⟩ | ⟨htrue, _⟩
    · exact hb
    · rw [hfalse] at htrue
      exact Bool.noConfusion htrue

/-- Witness for C1 at a concrete three-line SRT fragment for the pair
(en, ru): the index and timing entries pass through verbatim. -/
theorem C1_structural_preservation_witness :
    translate_subtitles (fun _ _ => Except.ok fun _ => Except.ok "Privet")
      "1\n00:00:01,000 --> 00:00:02,000\nHello world" "en" "ru" =
      Except.ok (joinNl ["1", "00:00:01,000 --> 00:00:02,000", "Privet"]) :=
  (C1_structural_preservation (fun _ _ => Except.ok fun _ => Except.ok "Privet")
    (fun _ => Except.ok "Privet") "1\n00:00:01,000 --> 00:00:02,000\nHello world"
    "en" "ru" ["1", "00:00:01,000 --> 00:00:02,000", "Privet"]
    (by decide) rfl rfl).1

/-- C2: translating with an identity language pair returns the document
unchanged, for every model loader (even one that always fails, so no model
can have been loaded), and the traced run records zero model invocations. -/
theorem C2_identity_translation
    (load : String → String → Except String (String → Except String String))
    (d L : String) :
    translate_subtitles load d L L = Except.ok d ∧
    translate_subtitles_traced load d L L = (Except.ok d, []) := by
  constructor
  · unfold translate_subtitles
    rw [if_pos rfl]
  · unfold translate_subtitles_traced
    rw [if_pos rfl]

/-- C3 counterexample: the empty document consists of one blank physical
line, which is neither entirely digits nor contains the delimiter, yet the
traced run for the pair (en, ru) invokes the model zero times and returns
the blank line unchanged — blank lines are not sent to the model. -/
theorem C3_blank_line_counterexample :
    ("" ∈ pySplitLines "") ∧ pyIsDigit "" = false ∧ containsArrow "".data = false ∧
    translate_subtitles_traced (fun _ _ => Except.ok fun l => Except.ok ("T" ++ l))
      "" "en" "ru" = (Except.ok "", []) :=
  ⟨by decide, by decide, by decide, rfl⟩

/-- C3 amended: for a non-identity pair, every physical line whose
whitespace-stripped content is non-empty and not entirely digits and which
does not contain the delimiter substring is sent to the translation model
(appears among the traced invocations) whenever the run returns a result. -/
theorem C3_sent_lines_amended
    (load : String → String → Except String (String → Except String String))
    (tr : String → Except String String) (d s t r : String) (calls : List String)
    (hst : s ≠ t) (hload : load s t = Except.ok tr)
    (h : translate_subtitles_traced load d s t = (Except.ok r, calls)) :
    ∀ line ∈ pySplitLines d, sentToModelSpec line → line ∈ calls := by
  rcases hrec : translateLinesTraced tr (pySplitLines d) with ⟨res, cs⟩
  cases res with
  | error e =>
    rw [translate_subtitles_traced_eq_error load tr d s t e cs hst hload hrec,
      Prod.mk.injEq] at h
    exact Except.noConfusion h.1
  | ok ts =>
    rw [translate_subtitles_traced_eq_ok load tr d s t ts cs hst hload hrec,
      Prod.mk.injEq] at h
    obtain ⟨h1, h2⟩ := h
    subst h2
    obtain ⟨hcs, _⟩ := translateLinesTraced_ok tr (pySplitLines d) ts cs hrec
    intro line hline hsent
    rw [hcs]
    exact List.mem_filter.mpr ⟨hline, (isTextual_iff_sent line).mpr hsent⟩

/-- Witness for the amended C3: in the two-line document "1\nHello" the
second line is sent to the model. -/
theorem C3_sent_lines_amended_witness :
    "Hello" ∈ (translate_subtitles_traced
      (fun _ _ => Except.ok fun l => Except.ok ("T" ++ l)) "1\nHello" "en" "ru").2 :=
  C3_sent_lines_amended (fun _ _ => Except.ok fun l => Except.ok ("T" ++ l))
    (fun l => Except.ok ("T" ++ l)) "1\nHello" "en" "ru" "1\nTHello" ["Hello"]
    (by decide) rfl rfl "Hello" (by decide) ⟨by decide, by decide, by decide⟩

/-- C4: if the model raises on any textual line of the document, the whole
translation raises the wrapping error and returns no document at all. -/
theorem C4_translation_failure_atomic
    (load : String → String → Except String (String → Except String String))
    (tr : String → Except String String) (d s t line e : String)
    (hst : s ≠ t) (hload : load s t = Except.ok tr)
    (hmem : line ∈ pySplitLines d) (htext : isTextual line = true)
    (herr : tr line = Except.error e) :
    ∃ msg, translate_subtitles load d s t =
      Except.error ("Error during translation: " ++ msg) := by
  obtain ⟨msg, hmsg⟩ :=
    translateLines_error_of_mem tr (pySplitLines d) line e hmem htext herr
  exact ⟨msg, translate_subtitles_eq_error load tr d s t msg hst hload hmsg⟩

/-- Witness for C4: a model that raises on the single textual line makes the
whole request fail. -/
theorem C4_translation_failure_atomic_witness :
    ∃ msg, translate_subtitles (fun _ _ => Except.ok fun _ => Except.error "boom")
      "Hello" "en" "ru" = Except.error ("Error during translation: " ++ msg) :=
  C4_translation_failure_atomic (fun _ _ => Except.ok fun _ => Except.error "boom")
    (fun _ => Except.error "boom") "Hello" "en" "ru" "Hello" "boom"
    (by decide) rfl (by decide) (by decide) rfl

/-- C5: with a successful extraction and a failing transcription (for
example a rejected API key), the run ends in the failure branch but the
extracted mp3 temporary file is left on disk: `os.remove(audio_path)` is
only reached on the all-success path, so the cleanup claim fails on the
code. -/
theorem C5_temp_file_leak :
    pipeline_run ExtractOutcome.success (fun _ => Except.error "Incorrect API key")
      (fun _ _ => Except.ok fun l => Except.ok l) "en" "ru" "v.mp4" "a.mp3" [] =
      (none, ["a.mp3"]) := rfl

/-- C6 counterexample: calling `generate_subtitles` with a fresh credential
overwrites the shared module-level openai state, and the new key is still
there after the call returns — the credential is not request-scoped. -/
theorem C6_module_state_counterexample :
    (generate_subtitles (fun _ _ => Except.ok "srt") "audio.mp3" "sk-new"
        { api_key := some "sk-old" }).2 = { api_key := some "sk-new" } ∧
    ({ api_key := some "sk-new" } : OpenAIState) ≠ { api_key := some "sk-old" } :=
  ⟨rfl, by decide⟩

/-- C6 amended: `generate_subtitles` stores the request credential in the
shared module-level client state before the call; the transcription call
reads exactly that credential, and the module state still holds it after the
request returns. -/
theorem C6_credential_flow_amended
    (transcribe_service : Option String → String → Except String String)
    (audio_path api_key : String) (st : OpenAIState) :
    generate_subtitles transcribe_service audio_path api_key st =
      (transcribe_service (some api_key) audio_path, { api_key := some api_key }) := rfl

/-- C7: `extract_audio_to_mp3` raises on a non-zero ffmpeg exit and on an
unexpected fault, and otherwise returns the complete audio asset with the
temporary input video file already deleted from disk. -/
theorem C7_extract_audio_contract (v a : String) (fs : List String)
    (hva : v ≠ a) (hv : v ∉ fs) :
    (∀ e, extract_audio_to_mp3 (ExtractOutcome.ffmpegError e) v a fs =
      (Except.error ("FFmpeg error: " ++ e), a :: v :: fs)) ∧
    (∀ e, extract_audio_to_mp3 (ExtractOutcome.ioError e) v a fs =
      (Except.error ("Unexpected error: " ++ e), a :: v :: fs)) ∧
    extract_audio_to_mp3 ExtractOutcome.success v a fs = (Except.ok a, a :: fs) ∧
    v ∉ a :: fs := by
  have h2 : (a :: v :: fs).erase v = a :: fs := by
    rw [List.erase_cons, if_neg (fun hh => hva (eq_of_beq hh).symm),
      List.erase_cons, if_pos (beq_self_eq_true v)]
  refine ⟨fun e => rfl, fun e => rfl, ?_, ?_⟩
  · rw [show extract_audio_to_mp3 ExtractOutcome.success v a fs =
      (Except.ok a, (a :: v :: fs).erase v) from rfl, h2]
  · intro hmem
    rcases List.mem_cons.mp hmem with h | h
    · exact hva h
    · exact hv h

/-- Witness for C7: the success path at concrete fresh temp names. -/
theorem C7_extract_audio_contract_witness :
    extract_audio_to_mp3 ExtractOutcome.success "v.mp4" "a.mp3" [] =
      (Except.ok "a.mp3", ["a.mp3"]) ∧ "v.mp4" ∉ (["a.mp3"] : List String) :=
  (C7_extract_audio_contract "v.mp4" "a.mp3" [] (by decide) (by decide)).2.2

/-- C8: every language code the app can produce lies in the supported set,
and a request whose source or target name has no code is halted by the
lookup before any pipeline stage runs, leaving the file system untouched,
whatever the stage outcomes would have been. -/
theorem C8_unsupported_language_rejected (outcome : ExtractOutcome)
    (transcribe : String → Except String String)
    (load : String → String → Except String (String → Except String String))
    (s t v a : String) (fs : List String) :
    (∀ c, language_code_map s = some c → c ∈ supported_codes) ∧
    (∀ c, language_code_map t = some c → c ∈ supported_codes) ∧
    ((language_code_map s = none ∨ language_code_map t = none) →
      app_flow outcome transcribe load s t v a fs = (none, fs)) := by
  have hmap : ∀ n c, language_code_map n = some c → c ∈ supported_codes := by
    intro n c hc
    unfold language_code_map at hc
    split_ifs at hc <;> cases hc <;> decide
  refine ⟨hmap s, hmap t, ?_⟩
  intro h
  rcases h with hs | ht
  · unfold app_flow
    rw [hs]
  · unfold app_flow
    cases hcs : language_code_map s with
    | none => rfl
    | some c => rw [ht]

/-- Witness for C8: a request with an unmapped source language is rejected
with the file system untouched, regardless of stage outcomes. -/
theorem C8_unsupported_language_rejected_witness :
    app_flow ExtractOutcome.success (fun _ => Except.ok "subs")
      (fun _ _ => Except.ok fun l => Except.ok l) "Klingon" "English"
      "v.mp4" "a.mp3" [] = (none, []) :=
  (C8_unsupported_language_rejected ExtractOutcome.success (fun _ => Except.ok "subs")
    (fun _ _ => Except.ok fun l => Except.ok l) "Klingon" "English"
    "v.mp4" "a.mp3" []).2.2 (Or.inl rfl)

/-- C9: for a successful non-identity run, the lines passed to the model are
exactly the lines passing the code's classification test; that test holds
iff the stripped content is non-empty, not entirely digits, and the line
contains no delimiter substring anywhere; and every line failing the test
appears in the output entry-for-entry byte-identical. -/
theorem C9_line_classification
    (load : String → String → Except String (String → Except String String))
    (tr : String → Except String String) (d s t : String)
    (outLines calls : List String)
    (hst : s ≠ t) (hload : load s t = Except.ok tr)
    (hlines : translateLinesTraced tr (pySplitLines d) = (Except.ok outLines, calls)) :
    translate_subtitles_traced load d s t = (Except.ok (joinNl outLines), calls) ∧
    calls = (pySplitLines d).filter isTextual ∧
    (∀ line : String, isTextual line = true ↔ sentToModelSpec line) ∧
    outLines.length = (pySplitLines d).length ∧
    ∀ i (hi : i < (pySplitLines d).length) (hi2 : i < outLines.length),
      ¬ sentToModelSpec ((pySplitLines d).get ⟨i, hi⟩) →
      outLines.get ⟨i, hi2⟩ = (pySplitLines d).get ⟨i, hi⟩ := by
  obtain ⟨hcalls, hplain⟩ :=
    translateLinesTraced_ok tr (pySplitLines d) outLines calls hlines
  have hf := translateLines_forall2 tr (pySplitLines d) outLines hplain
  refine ⟨translate_subtitles_traced_eq_ok load tr d s t outLines calls hst hload hlines,
    hcalls, isTextual_iff_sent, hf.length_eq.symm, ?_⟩
  · intro i hi hi2 hnot
    have hfalse : isTextual ((pySplitLines d).get ⟨i, hi⟩) = false := by
      cases hb : isTextual ((pySplitLines d).get ⟨i, hi⟩)
      · rfl
      · exact absurd ((isTextual_iff_sent _).mp hb) hnot
    rcases hf.get hi hi2 with ⟨_, hb⟩ | ⟨htrue, _⟩
    · exact hb
    · rw [hfalse] at htrue
      exact Bool.noConfusion htrue

/-- Witness for C9: in "hi\n42" exactly the non-digit line is invoked. -/
theorem C9_line_classification_witness :
    (["hi"] : List String) = (pySplitLines "hi\n42").filter isTextual :=
  (C9_line_classification (fun _ _ => Except.ok fun l => Except.ok ("T" ++ l))
    (fun l => Except.ok ("T" ++ l)) "hi\n42" "en" "uk" ["Thi", "42"] ["hi"]
    (by decide) rfl rfl).2.1

/-- C10 counterexample: a model output containing a newline changes the
physical line count — the one-line document "x" translates to a two-line
document for the pair (en, ru). -/
theorem C10_line_count_counterexample :
    translate_subtitles (fun _ _ => Except.ok fun _ => Except.ok "a\nb")
      "x" "en" "ru" = Except.ok "a\nb" ∧
    (pySplitLines "x").length = 1 ∧ (pySplitLines "a\nb").length = 2 :=
  ⟨rfl, by decide, by decide⟩

/-- C10 amended: translation replaces lines one-for-one (one output entry
per physical input line), and the returned document has exactly as many
physical lines as the input provided every string the model returns is
newline-free. -/
theorem C10_line_count_amended
    (load : String → String → Except String (String → Except String String))
    (tr : String → Except String String) (d s t : String) (outLines : List String)
    (hst : s ≠ t) (hload : load s t = Except.ok tr)
    (hlines : translateLines tr (pySplitLines d) = Except.ok outLines)
    (hnl : ∀ x r, tr x = Except.ok r → '\n' ∉ r.data) :
    translate_subtitles load d s t = Except.ok (joinNl outLines) ∧
    outLines.length = (pySplitLines d).length ∧
    (pySplitLines (joinNl outLines)).length = (pySplitLines d).length := by
  have hf := translateLines_forall2 tr (pySplitLines d) outLines hlines
  have hlen : outLines.length = (pySplitLines d).length := hf.length_eq.symm
  refine ⟨translate_subtitles_eq_ok load tr d s t outLines hst hload hlines, hlen, ?_⟩
  have hmem : ∀ b ∈ outLines, '\n' ∉ b.data := by
    intro b hb
    obtain ⟨⟨j, hj⟩, rfl⟩ := List.mem_iff_get.mp hb
    have hj2 : j < (pySplitLines d).length := by rw [← hlen]; exact hj
    rcases hf.get hj2 hj with ⟨_, hbeq⟩ | ⟨_, htr⟩
    · rw [hbeq]
      exact mem_pySplitLines_no_newline d _ (List.get_mem _ _ _)
    · exact hnl _ _ htr
  have hne : outLines.map String.data ≠ [] := by
    intro hc
    have hc2 := congrArg List.length hc
    rw [List.length_map, hlen] at hc2
    unfold pySplitLines at hc2
    rw [List.length_map] at hc2
    exact splitNlCh_ne_nil d.data (List.length_eq_zero.mp hc2)
  have hnl2 : ∀ x ∈ outLines.map String.data, '\n' ∉ x := by
    intro x hx
    obtain ⟨b, hb, rfl⟩ := List.mem_map.mp hx
    exact hmem b hb
  have hsplit : pySplitLines (joinNl outLines) = outLines := by
    unfold pySplitLines joinNl
    rw [show (String.mk (joinNlCh (outLines.map String.data))).data =
        joinNlCh (outLines.map String.data) from rfl,
      splitNlCh_joinNlCh (outLines.map String.data) hne hnl2,
      List.map_map]
    exact map_mk_data outLines
  rw [hsplit, hlen]

/-- Witness for the amended C10 at a one-line document and a newline-free
model output. -/
theorem C10_line_count_amended_witness :
    (pySplitLines (joinNl ["Privet"])).length = (pySplitLines "x").length :=
  (C10_line_count_amended (fun _ _ => Except.ok fun _ => Except.ok "Privet")
    (fun _ => Except.ok "Privet") "x" "en" "ru" ["Privet"]
    (by decide) rfl rfl
    (fun x r hr => by cases hr; decide)).2.2

example : pySplitLines "" = [""] := by decide

example : pySplitLines "a\nb" = ["a", "b"] := by decide

example : isTextual "" = false := by decide

example : isTextual " 12 " = false := by decide

example : isTextual "Hello world" = true := by decide

example : isTextual "00:00:01,000 --> 00:00:02,000" = false := by decide

example :
    translate_subtitles (fun _ _ => Except.ok fun l => Except.ok ("T" ++ l))
      "1\n00:00:01,000 --> 00:00:02,000\nHello" "en" "ru" =
      Except.ok "1\n00:00:01,000 --> 00:00:02,000\nTHello" := rfl

example :
    translate_subtitles_traced (fun _ _ => Except.ok fun l => Except.ok ("T" ++ l))
      "" "en" "ru" = (Except.ok "", []) := rfl
